import Mathlib

/-!
Verification of the networkd state-aggregation, query and monitor contracts,
and of the unit drop-in loader.  Definitions are shallow embeddings of
src/src/network/networkd.c, src/src/systemd/sd-network.h and src/load-dropin.c;
components whose implementation is not part of this tree are modelled from the
specification, as marked on each definition.
-/

/-- errno value ENOENT (2), "No such file or directory". -/
def ENOENT : Int := 2

/-- errno value EINVAL (22), "Invalid argument". -/
def EINVAL : Int := 22

/-- errno value ENODATA (61), "No data available". -/
def ENODATA : Int := 61

/-- Per-link operational state, as documented in sd-network.h for
sd_network_link_get_operational_state: off, no-carrier, dormant, carrier,
degraded, routable, totally ordered worst to best in that sequence. -/
inductive OperState
  | off
  | noCarrier
  | dormant
  | carrier
  | degraded
  | routable
  deriving DecidableEq, Repr

/-- Position of an operational state in the worst-to-best total order. -/
def OperState.rank : OperState → Nat
  | .off => 0
  | .noCarrier => 1
  | .dormant => 2
  | .carrier => 3
  | .degraded => 4
  | .routable => 5

/-- The string the query surface uses for each per-link operational state
(sd-network.h, documentation of sd_network_link_get_operational_state). -/
def OperState.toStr : OperState → String
  | .off => "off"
  | .noCarrier => "no-carrier"
  | .dormant => "dormant"
  | .carrier => "carrier"
  | .degraded => "degraded"
  | .routable => "routable"

/-- The worse (minimum) of two operational states in the total order. -/
def OperState.worse (a b : OperState) : OperState :=
  if a.rank ≤ b.rank then a else b

/-- Per-link setup state, as documented in sd-network.h for
sd_network_link_get_setup_state. -/
inductive SetupState
  | pending
  | configuring
  | configured
  | failed
  | unmanaged
  | linger
  deriving DecidableEq, Repr

/-- The string the query surface uses for each setup state. -/
def SetupState.toStr : SetupState → String
  | .pending => "pending"
  | .configuring => "configuring"
  | .configured => "configured"
  | .failed => "failed"
  | .unmanaged => "unmanaged"
  | .linger => "linger"

/-- The RequiredFamilyForOnline policy value: any, ipv4 or ipv6. -/
inductive Family
  | any
  | ipv4
  | ipv6
  deriving DecidableEq, Repr

/-- The per-interface record tracked by the daemon (spec section 3). -/
structure LinkState where
  ifindex : Nat
  ns : String
  setup_state : SetupState
  operational_state : OperState
  carrier_state : OperState
  ipv4_address_state : OperState
  ipv6_address_state : OperState
  online_state : OperState
  required_for_online : Bool
  required_family_for_online : Family
  deriving DecidableEq, Repr

/-- Modelled from the spec: whether a link with RequiredFamilyForOnline
policy linkFam takes part in the aggregate for family queryFam (the
implementation of the aggregation filter is not under src/, only the
sd-network.h query surface is). -/
def familyMatches (queryFam linkFam : Family) : Bool :=
  queryFam == Family.any || linkFam == Family.any || queryFam == linkFam

/-- Modelled from the spec: the links of namespace n that take part in the
aggregate: required_for_online = true and matching
required_family_for_online. -/
def requiredLinks (links : List LinkState) (n : String) (fam : Family) :
    List LinkState :=
  links.filter fun l =>
    l.ns == n && l.required_for_online &&
      familyMatches fam l.required_family_for_online

/-- Fold of OperState.worse over a list, starting from s: the worst state
among s and the elements of the list. -/
def worstFrom (s : OperState) : List OperState → OperState
  | [] => s
  | x :: xs => worstFrom (s.worse x) xs

/-- Modelled from the spec: the aggregate computation (networkd's manager
aggregation code is not under src/).  Filter to the required links of the
namespace, then: empty set means best possible state (routable), otherwise
the minimum (worst) of the filtered links' facet states.  The facet selects
which per-link state is aggregated (operational, carrier, address, online). -/
def recomputeAggregate (facet : LinkState → OperState)
    (links : List LinkState) (n : String) (fam : Family) : OperState :=
  match requiredLinks links n fam with
  | [] => OperState.routable
  | l :: ls => worstFrom (facet l) (ls.map facet)

theorem OperState.worse_le_left (a b : OperState) :
    (a.worse b).rank ≤ a.rank := by
  unfold OperState.worse
  split
  · exact Nat.le_refl _
  · omega

theorem OperState.worse_le_right (a b : OperState) :
    (a.worse b).rank ≤ b.rank := by
  unfold OperState.worse
  split
  · assumption
  · exact Nat.le_refl _

theorem OperState.worse_eq_or (a b : OperState) :
    a.worse b = a ∨ a.worse b = b := by
  unfold OperState.worse
  split
  · exact Or.inl rfl
  · exact Or.inr rfl

theorem worstFrom_le_init (xs : List OperState) (s : OperState) :
    (worstFrom s xs).rank ≤ s.rank := by
  induction xs generalizing s with
  | nil => exact Nat.le_refl _
  | cons x xs ih =>
      exact Nat.le_trans (ih (s.worse x)) (OperState.worse_le_left s x)

theorem worstFrom_le_mem (xs : List OperState) (s x : OperState)
    (hx : x ∈ xs) : (worstFrom s xs).rank ≤ x.rank := by
  induction xs generalizing s with
  | nil => cases hx
  | cons y ys ih =>
      rcases List.mem_cons.mp hx with h | h
      · subst h
        exact Nat.le_trans (worstFrom_le_init ys (s.worse x))
          (OperState.worse_le_right s x)
      · exact ih (s.worse y) h

theorem worstFrom_eq_or_mem (xs : List OperState) (s : OperState) :
    worstFrom s xs = s ∨ worstFrom s xs ∈ xs := by
  induction xs generalizing s with
  | nil => exact Or.inl rfl
  | cons x ys ih =>
      have hstep : worstFrom s (x :: ys) = worstFrom (s.worse x) ys := rfl
      rcases ih (s.worse x) with h | h
      · rcases OperState.worse_eq_or s x with h2 | h2
        · exact Or.inl (by rw [hstep, h, h2])
        · exact Or.inr (by rw [hstep, h, h2]; exact List.mem_cons_self x ys)
      · exact Or.inr (by rw [hstep]; exact List.mem_cons_of_mem x h)

/-- C1: for every link set, namespace and family filter, the aggregate state
is the minimum (worst) over the states of the links with
required_for_online = true and matching required_family_for_online: when
that filtered set is empty the aggregate is the best possible state
(routable), and otherwise the aggregate is a state of some filtered link and
is less than or equal to (worse than or equal to) every filtered link's
state in the off < no-carrier < dormant < carrier < degraded < routable
order. -/
theorem aggregate_is_min_over_required (facet : LinkState → OperState)
    (links : List LinkState) (n : String) (fam : Family) :
    (requiredLinks links n fam = [] →
      recomputeAggregate facet links n fam = OperState.routable) ∧
    (∀ l ∈ requiredLinks links n fam,
      (recomputeAggregate facet links n fam).rank ≤ (facet l).rank) ∧
    (requiredLinks links n fam ≠ [] →
      ∃ l ∈ requiredLinks links n fam,
        recomputeAggregate facet links n fam = facet l) := by
  rcases hreq : requiredLinks links n fam with _ | ⟨l0, ls⟩
  · refine ⟨fun _ => ?_, fun l hl => absurd hl (List.not_mem_nil l),
      fun hne => absurd rfl hne⟩
    simp [recomputeAggregate, hreq]
  · have hagg : recomputeAggregate facet links n fam
        = worstFrom (facet l0) (ls.map facet) := by
      simp [recomputeAggregate, hreq]
    refine ⟨fun h => absurd h (List.cons_ne_nil l0 ls), fun l hl => ?_,
      fun _ => ?_⟩
    · rw [hagg]
      rcases List.mem_cons.mp hl with h | h
      · subst h
        exact worstFrom_le_init (ls.map facet) (facet l)
      · exact worstFrom_le_mem (ls.map facet) (facet l0) (facet l)
          (List.mem_map_of_mem facet h)
    · rcases worstFrom_eq_or_mem (ls.map facet) (facet l0) with h | h
      · exact ⟨l0, List.mem_cons_self l0 ls, by rw [hagg, h]⟩
      · rcases List.mem_map.mp h with ⟨l, hl, hfl⟩
        exact ⟨l, List.mem_cons_of_mem l0 hl, by rw [hagg, hfl]⟩

/-- A required link in namespace main that is degraded. -/
def demoLinkDegraded : LinkState :=
  ⟨1, "main", SetupState.configured, OperState.degraded, OperState.carrier,
    OperState.degraded, OperState.degraded, OperState.degraded, true,
    Family.any⟩

/-- A required link in namespace main that is routable. -/
def demoLinkRoutable : LinkState :=
  ⟨2, "main", SetupState.configured, OperState.routable, OperState.carrier,
    OperState.routable, OperState.routable, OperState.routable, true,
    Family.any⟩

/-- A concrete two-link set used to exercise the aggregation theorem. -/
def demoLinks : List LinkState := [demoLinkDegraded, demoLinkRoutable]

/-- A concrete instance for aggregate_is_min_over_required: an empty link set
aggregates to routable, and with a required degraded link present the
aggregate is at most degraded. -/
theorem aggregate_is_min_over_required_witness :
    (requiredLinks [] "main" Family.any = [] ∧
      recomputeAggregate (fun l => l.operational_state) [] "main" Family.any
        = OperState.routable) ∧
    demoLinkDegraded ∈ requiredLinks demoLinks "main" Family.any ∧
    (recomputeAggregate (fun l => l.operational_state) demoLinks "main"
        Family.any).rank ≤ demoLinkDegraded.operational_state.rank :=
  ⟨⟨by decide,
      (aggregate_is_min_over_required (fun l => l.operational_state) []
        "main" Family.any).1 (by decide)⟩,
    by decide,
    (aggregate_is_min_over_required (fun l => l.operational_state) demoLinks
        "main" Family.any).2.1 demoLinkDegraded (by decide)⟩

/-- Modelled from the spec: the link record the daemon tracks for an
interface index in a namespace, if any (the query implementation,
sd-network.c, is not under src/; sd-network.h documents that every per-link
query returns -ENODATA when networkd is not aware of the link). -/
def findLink (links : List LinkState) (ifindex : Nat) (n : String) :
    Option LinkState :=
  links.find? fun l => l.ifindex == ifindex && l.ns == n

/-- Modelled from the spec: the common shape of each per-link string query:
an untracked link yields the distinct error -ENODATA, a tracked link yields
the selected field of its record. -/
def linkQuery (field : LinkState → String) (links : List LinkState)
    (ifindex : Nat) (n : String) : Except Int String :=
  match findLink links ifindex n with
  | none => Except.error (-ENODATA)
  | some l => Except.ok (field l)

/-- Modelled from the spec: sd_network_link_get_setup_state. -/
def sd_network_link_get_setup_state (links : List LinkState) (ifindex : Nat)
    (n : String) : Except Int String :=
  linkQuery (fun l => l.setup_state.toStr) links ifindex n

/-- Modelled from the spec: sd_network_link_get_operational_state. -/
def sd_network_link_get_operational_state (links : List LinkState)
    (ifindex : Nat) (n : String) : Except Int String :=
  linkQuery (fun l => l.operational_state.toStr) links ifindex n

theorem setupStateToStr_ne_empty (st : SetupState) : st.toStr ≠ "" := by
  cases st <;> decide

theorem operStateToStr_ne_empty (s : OperState) : s.toStr ≠ "" := by
  cases s <;> decide

/-- C2: a per-link query invoked with an interface index or namespace the
daemon is not aware of returns the distinct error -ENODATA (for every field
selector, hence for the setup-state and operational-state queries in
particular), and a query never succeeds with an empty value that could be
conflated with a tracked link: success implies the link is tracked and the
returned state string is nonempty. -/
theorem unknown_link_yields_enodata (links : List LinkState) (ifindex : Nat)
    (n : String) :
    (findLink links ifindex n = none →
      (∀ field, linkQuery field links ifindex n = Except.error (-ENODATA)) ∧
      sd_network_link_get_setup_state links ifindex n
        = Except.error (-ENODATA) ∧
      sd_network_link_get_operational_state links ifindex n
        = Except.error (-ENODATA)) ∧
    (∀ field s, linkQuery field links ifindex n = Except.ok s →
      ∃ l, findLink links ifindex n = some l) ∧
    (∀ s, sd_network_link_get_setup_state links ifindex n = Except.ok s →
      s ≠ "") ∧
    (∀ s, sd_network_link_get_operational_state links ifindex n
        = Except.ok s → s ≠ "") := by
  rcases hfl : findLink links ifindex n with _ | l
  · refine ⟨fun _ => ?_, fun field s hs => ?_, fun s hs => ?_, fun s hs => ?_⟩
    · refine ⟨fun field => ?_, ?_, ?_⟩ <;>
        simp [linkQuery, sd_network_link_get_setup_state,
          sd_network_link_get_operational_state, hfl]
    all_goals
      simp [linkQuery, sd_network_link_get_setup_state,
        sd_network_link_get_operational_state, hfl] at hs
  · refine ⟨fun habs => Option.noConfusion habs,
      fun field s _ => ⟨l, rfl⟩, fun s hs => ?_, fun s hs => ?_⟩
    · have : s = l.setup_state.toStr := by
        simp [sd_network_link_get_setup_state, linkQuery, hfl] at hs
        exact hs.symm
      rw [this]
      exact setupStateToStr_ne_empty l.setup_state
    · have : s = l.operational_state.toStr := by
        simp [sd_network_link_get_operational_state, linkQuery, hfl] at hs
        exact hs.symm
      rw [this]
      exact operStateToStr_ne_empty l.operational_state

/-- A concrete instance for unknown_link_yields_enodata: with no tracked
links, querying interface 7 in namespace main yields -ENODATA. -/
theorem unknown_link_yields_enodata_witness :
    findLink [] 7 "main" = none ∧
    sd_network_link_get_setup_state [] 7 "main"
      = Except.error (-ENODATA) ∧
    sd_network_link_get_operational_state [] 7 "main"
      = Except.error (-ENODATA) :=
  ⟨rfl,
    ((unknown_link_yields_enodata [] 7 "main").1 rfl).2.1,
    ((unknown_link_yields_enodata [] 7 "main").1 rfl).2.2⟩

/-- The value list documented for the overall (aggregate) operational state
query, transcribed from the header comment of
sd_network_get_operational_state in sd-network.h ("Possible states: down,
up, dormant, carrier, degraded, routable"). -/
def overall_operational_states_doc : List String :=
  ["down", "up", "dormant", "carrier", "degraded", "routable"]

/-- The value list documented for the per-link operational state query,
transcribed from the header comment of
sd_network_link_get_operational_state in sd-network.h. -/
def link_operational_states_doc : List String :=
  ["off", "no-carrier", "dormant", "carrier", "degraded", "routable"]

theorem OperState.toStr_mem_link_states (s : OperState) :
    link_operational_states_doc.contains s.toStr = true := by
  cases s <;> decide

/-- C3: evidence that the header's documentation of the overall operational
state contradicts the per-link enumeration and the aggregation algorithm:
the overall-state comment lists "down" and "up", which are not per-link
operational states, while the aggregate (the worst required link state, or
routable when no link is required) always is a per-link operational state,
so it can never be "down" or "up". -/
theorem overall_state_doc_mismatch :
    overall_operational_states_doc.contains "down" = true ∧
    link_operational_states_doc.contains "down" = false ∧
    overall_operational_states_doc.contains "up" = true ∧
    link_operational_states_doc.contains "up" = false ∧
    ∀ facet links n fam,
      link_operational_states_doc.contains
        (recomputeAggregate facet links n fam).toStr = true :=
  ⟨by decide, by decide, by decide, by decide,
    fun facet links n fam =>
      OperState.toStr_mem_link_states (recomputeAggregate facet links n fam)⟩

/-- One observable step of run() in src/src/network/networkd.c. -/
inductive Step
  | mkdirRuntime
  | mkdirLinks
  | mkdirLeases
  | mkdirLldp
  | managerNew
  | managerSetup
  | parseConfig
  | loadConfig
  | enumerate
  | managerStart
  | eventLoop
  deriving DecidableEq, Repr

/-- The sequence of steps performed by run() in src/src/network/networkd.c
and whether the event loop is reached.  Each boolean is the success of the
corresponding fallible call.  Creation of the runtime directories and
manager_parse_config_file only log a warning on failure and never stop the
sequence, mirroring the source; manager_load_config, manager_enumerate and
manager_start failures return early.  euidRoot is the geteuid() == 0 branch
that creates the runtime directory itself and drops privileges (privOk is
get_user_creds plus drop_privileges succeeding).  Live events are processed
only inside Step.eventLoop, which run() enters via sd_event_loop as its very
last action. -/
def runTrace (euidRoot privOk newOk setupOk loadOk enumOk startOk : Bool) :
    List Step × Bool :=
  let pre := if euidRoot then [Step.mkdirRuntime] else []
  if euidRoot && !privOk then (pre, false)
  else
    let t1 := pre ++ [Step.mkdirLinks, Step.mkdirLeases, Step.mkdirLldp,
      Step.managerNew]
    if !newOk then (t1, false)
    else
      let t2 := t1 ++ [Step.managerSetup]
      if !setupOk then (t2, false)
      else
        let t3 := t2 ++ [Step.parseConfig, Step.loadConfig]
        if !loadOk then (t3, false)
        else
          let t4 := t3 ++ [Step.enumerate]
          if !enumOk then (t4, false)
          else
            let t5 := t4 ++ [Step.managerStart]
            if !startOk then (t5, false)
            else (t5 ++ [Step.eventLoop], true)

/-- a occurs in the trace strictly before b. -/
abbrev stepsBefore (t : List Step) (a b : Step) : Prop :=
  a ∈ t ∧ b ∈ t ∧ t.indexOf a < t.indexOf b

/-- The startup ordering contract of run(): the runtime subdirectories
(links, leases, lldp) are created, then the configuration is parsed and
loaded, then existing interfaces are enumerated, and only then is the event
loop entered. -/
abbrev startupOrdered (t : List Step) : Prop :=
  stepsBefore t Step.mkdirLinks Step.parseConfig ∧
  stepsBefore t Step.mkdirLeases Step.parseConfig ∧
  stepsBefore t Step.mkdirLldp Step.parseConfig ∧
  stepsBefore t Step.parseConfig Step.loadConfig ∧
  stepsBefore t Step.loadConfig Step.enumerate ∧
  stepsBefore t Step.enumerate Step.eventLoop

/-- C4: in every execution of run() that enters the event loop, the runtime
directories (links, leases, lldp) were created first, then the configuration
was parsed and loaded, then existing interfaces were enumerated, and the
event loop step comes strictly after enumeration; since live events are
processed only inside the event loop, no live event is processed before
enumeration finishes. -/
theorem run_startup_order :
    ∀ euidRoot privOk newOk setupOk loadOk enumOk startOk : Bool,
      Step.eventLoop ∈
          (runTrace euidRoot privOk newOk setupOk loadOk enumOk startOk).1 →
      startupOrdered
        (runTrace euidRoot privOk newOk setupOk loadOk enumOk startOk).1 := by
  decide

/-- A concrete instance for run_startup_order: the fully successful run
enters the event loop and its trace is startup-ordered. -/
theorem run_startup_order_witness :
    Step.eventLoop ∈ (runTrace true true true true true true true).1 ∧
    startupOrdered (runTrace true true true true true true true).1 :=
  ⟨by decide, run_startup_order true true true true true true true (by decide)⟩

/-- The base runtime location for a namespace, as computed by run() in
src/src/network/networkd.c: /run/systemd/netif, or /run/systemd/netif.NS
when a namespace argument is given. -/
def monitorBase (n : Option String) : String :=
  match n with
  | none => "/run/systemd/netif"
  | some x => "/run/systemd/netif." ++ x

/-- Modelled from the spec: the backing locations a monitor watches for a
category: the links location, the leases location, or both when the
category is unset; any other category is invalid (none here).  The
sd-network.c implementation is not under src/; sd-network.h states the
category must be NULL, "links" or "leases". -/
def categoryPaths (base : String) (category : Option String) :
    Option (List String) :=
  match category with
  | none => some [base ++ "/links", base ++ "/leases"]
  | some c =>
      if c = "links" then some [base ++ "/links"]
      else if c = "leases" then some [base ++ "/leases"]
      else none

/-- A monitor handle: the locations its watch covers and whether a change
indication is pending on its pollable descriptor. -/
structure Monitor where
  watched : List String
  pending : Bool
  deriving DecidableEq, Repr

/-- Modelled from the spec: sd_network_monitor_new (sd-network.c is not
under src/).  A category other than none, "links" or "leases" is rejected
with -EINVAL before anything is created; if a watched backing location does
not exist (fsHas returns false on it) creation fails with -ENOENT, and a
successful monitor always carries its watch on existing locations — there
is no polling fallback. -/
def sd_network_monitor_new (fsHas : String → Bool)
    (category : Option String) (n : Option String) : Except Int Monitor :=
  match categoryPaths (monitorBase n) category with
  | none => Except.error (-EINVAL)
  | some ps =>
      if ps.all fsHas then Except.ok ⟨ps, false⟩
      else Except.error (-ENOENT)

/-- C5: sd_network_monitor_new accepts only the categories none (meaning
all), "links" and "leases"; any other category is rejected with -EINVAL, so
no monitor is ever created from it (the rejection happens before any state
mutation), and conversely a successfully created monitor always came from
one of the three accepted categories. -/
theorem monitor_new_rejects_bad_category (fsHas : String → Bool)
    (category n : Option String) :
    (category ≠ none → category ≠ some "links" → category ≠ some "leases" →
      sd_network_monitor_new fsHas category n = Except.error (-EINVAL)) ∧
    (∀ m, sd_network_monitor_new fsHas category n = Except.ok m →
      category = none ∨ category = some "links" ∨ category = some "leases") := by
  rcases category with _ | c
  · exact ⟨fun h => absurd rfl h, fun m _ => Or.inl rfl⟩
  · by_cases hl : c = "links"
    · subst hl
      exact ⟨fun _ h _ => absurd rfl h, fun m _ => Or.inr (Or.inl rfl)⟩
    · by_cases hle : c = "leases"
      · subst hle
        exact ⟨fun _ _ h => absurd rfl h, fun m _ => Or.inr (Or.inr rfl)⟩
      · refine ⟨fun _ _ _ => ?_, fun m hm => ?_⟩
        · simp [sd_network_monitor_new, categoryPaths, hl, hle]
        · simp [sd_network_monitor_new, categoryPaths, hl, hle] at hm

/-- A concrete instance for monitor_new_rejects_bad_category: the category
"bogus" is rejected with -EINVAL. -/
theorem monitor_new_rejects_bad_category_witness :
    (some "bogus" ≠ (none : Option String) ∧
      some "bogus" ≠ some "links" ∧ some "bogus" ≠ some "leases") ∧
    sd_network_monitor_new (fun _ => true) (some "bogus") none
      = Except.error (-EINVAL) :=
  ⟨⟨by decide, by decide, by decide⟩,
    (monitor_new_rejects_bad_category (fun _ => true) (some "bogus") none).1
      (by decide) (by decide) (by decide)⟩

theorem categoryPaths_ne_nil (base : String) (category : Option String)
    (ps : List String) (h : categoryPaths base category = some ps) :
    ps ≠ [] := by
  rcases category with _ | c
  · simp [categoryPaths] at h
    rw [← h]
    exact List.cons_ne_nil _ _
  · by_cases hl : c = "links"
    · simp [categoryPaths, hl] at h
      rw [← h]
      exact List.cons_ne_nil _ _
    · by_cases hle : c = "leases"
      · simp [categoryPaths, hl, hle] at h
        rw [← h]
        exact List.cons_ne_nil _ _
      · simp [categoryPaths, hl, hle] at h

/-- C6: if any backing location watched for the selected (valid) category
does not exist, sd_network_monitor_new fails with -ENOENT surfaced to the
caller; and a successfully created monitor always holds a nonempty watch
over locations that do exist — it never silently degrades to polling. -/
theorem monitor_new_requires_backing_location (fsHas : String → Bool)
    (category n : Option String) :
    (∀ ps, categoryPaths (monitorBase n) category = some ps →
      ps.all fsHas = false →
      sd_network_monitor_new fsHas category n = Except.error (-ENOENT)) ∧
    (∀ m, sd_network_monitor_new fsHas category n = Except.ok m →
      m.watched ≠ [] ∧ ∀ p ∈ m.watched, fsHas p = true) := by
  rcases hcp : categoryPaths (monitorBase n) category with _ | ps0
  · refine ⟨fun ps hps => Option.noConfusion hps, fun m hm => ?_⟩
    simp [sd_network_monitor_new, hcp] at hm
  · refine ⟨fun ps hps hall => ?_, fun m hm => ?_⟩
    · have hps0 : ps0 = ps := Option.some.inj hps
      subst hps0
      simp [sd_network_monitor_new, hcp, hall]
    · by_cases hall : ps0.all fsHas = true
      · have hmv : m = ⟨ps0, false⟩ := by
          simp [sd_network_monitor_new, hcp, hall] at hm
          exact hm.symm
        subst hmv
        refine ⟨categoryPaths_ne_nil (monitorBase n) category ps0 hcp, ?_⟩
        intro p hp
        exact List.all_eq_true.mp hall p hp
      · simp [sd_network_monitor_new, hcp,
          Bool.eq_false_iff.mpr hall] at hm

/-- A concrete instance for monitor_new_requires_backing_location: with no
backing locations present, creating a monitor for the links category fails
with -ENOENT. -/
theorem monitor_new_requires_backing_location_witness :
    categoryPaths (monitorBase none) (some "links")
      = some ["/run/systemd/netif/links"] ∧
    (["/run/systemd/netif/links"].all (fun _ => false) = false) ∧
    sd_network_monitor_new (fun _ => false) (some "links") none
      = Except.error (-ENOENT) :=
  ⟨by decide, by decide,
    (monitor_new_requires_backing_location (fun _ => false) (some "links")
        none).1 ["/run/systemd/netif/links"] (by decide) (by decide)⟩

/-- System-wide accounting of the open watch handles backing monitors. -/
structure WatchTable where
  openWatches : List String
  deriving DecidableEq, Repr

/-- Modelled from the spec: sd_network_monitor_unref (sd-network.c is not
under src/).  Destroying a monitor releases its watch handles immediately
and returns NULL (none, per the sd-network.h comment "Returns NULL");
destroying a NULL monitor does nothing. -/
def sd_network_monitor_unref (st : WatchTable) (m : Option Monitor) :
    WatchTable × Option Monitor :=
  match m with
  | none => (st, none)
  | some mon =>
      (⟨st.openWatches.filter fun w => decide (w ∉ mon.watched)⟩, none)

/-- C7: destroying a monitor returns NULL (none) and releases its watch
handles immediately; destroying is idempotent: repeating the destroy on the
returned NULL value, on an explicit NULL, or again on the same
already-destroyed monitor has no further effect. -/
theorem monitor_unref_idempotent (st : WatchTable) (m : Option Monitor) :
    (sd_network_monitor_unref st m).2 = none ∧
    sd_network_monitor_unref (sd_network_monitor_unref st m).1
        (sd_network_monitor_unref st m).2
      = sd_network_monitor_unref st m ∧
    sd_network_monitor_unref st none = (st, none) ∧
    ∀ mon, m = some mon →
      sd_network_monitor_unref (sd_network_monitor_unref st m).1 m
          = sd_network_monitor_unref st m ∧
      ∀ w ∈ mon.watched,
        w ∉ (sd_network_monitor_unref st m).1.openWatches := by
  rcases m with _ | mon
  · exact ⟨rfl, rfl, rfl, fun mon h => Option.noConfusion h⟩
  · refine ⟨rfl, rfl, rfl, fun mon2 h => ?_⟩
    have hmon : mon2 = mon := (Option.some.inj h).symm
    subst hmon
    constructor
    · have hfilter :
          ((st.openWatches.filter fun w => decide (w ∉ mon2.watched)).filter
              fun w => decide (w ∉ mon2.watched))
            = st.openWatches.filter fun w => decide (w ∉ mon2.watched) := by
        rw [List.filter_filter]
        congr 1
        funext a
        exact Bool.and_self _
      simp only [sd_network_monitor_unref]
      rw [Prod.mk.injEq]
      exact ⟨congrArg WatchTable.mk hfilter, rfl⟩
    · intro w hw hmem
      have hp := (List.mem_filter.mp hmem).2
      exact of_decide_eq_true hp hw

/-- A concrete instance for monitor_unref_idempotent: destroying a monitor
watching the links location removes that watch, returns none, and repeating
the destroy changes nothing. -/
theorem monitor_unref_idempotent_witness :
    (sd_network_monitor_unref ⟨["/run/systemd/netif/links"]⟩
        (some ⟨["/run/systemd/netif/links"], false⟩)).2 = none ∧
    sd_network_monitor_unref
        (sd_network_monitor_unref ⟨["/run/systemd/netif/links"]⟩
          (some ⟨["/run/systemd/netif/links"], false⟩)).1
        (some ⟨["/run/systemd/netif/links"], false⟩)
      = sd_network_monitor_unref ⟨["/run/systemd/netif/links"]⟩
          (some ⟨["/run/systemd/netif/links"], false⟩) ∧
    "/run/systemd/netif/links" ∉
      (sd_network_monitor_unref ⟨["/run/systemd/netif/links"]⟩
        (some ⟨["/run/systemd/netif/links"], false⟩)).1.openWatches :=
  ⟨(monitor_unref_idempotent ⟨["/run/systemd/netif/links"]⟩
      (some ⟨["/run/systemd/netif/links"], false⟩)).1,
    ((monitor_unref_idempotent ⟨["/run/systemd/netif/links"]⟩
        (some ⟨["/run/systemd/netif/links"], false⟩)).2.2.2
      ⟨["/run/systemd/netif/links"], false⟩ rfl).1,
    ((monitor_unref_idempotent ⟨["/run/systemd/netif/links"]⟩
        (some ⟨["/run/systemd/netif/links"], false⟩)).2.2.2
      ⟨["/run/systemd/netif/links"], false⟩ rfl).2
      "/run/systemd/netif/links" (by decide)⟩

/-- Modelled from the spec: a filesystem change event on the watched
category reaching the monitor; change indications coalesce, so however many
are already pending, the handle ends up with a single pending wakeup. -/
def monitorNotify (m : Monitor) : Monitor := { m with pending := true }

/-- Modelled from the spec: sd_network_monitor_flush drains and acknowledges
the pending change indications without processing them. -/
def sd_network_monitor_flush (m : Monitor) : Monitor :=
  { m with pending := false }

/-- The number of pending wakeups observable on the pollable handle. -/
def pendingWakeups (m : Monitor) : Nat := if m.pending then 1 else 0

/-- n writes delivered to the monitor in one burst. -/
def notifyN : Nat → Monitor → Monitor
  | 0, m => m
  | k + 1, m => notifyN k (monitorNotify m)

/-- An operation observed by a monitor: a write to its watched category, or
a flush of its handle. -/
inductive MonOp
  | write
  | drain
  deriving DecidableEq, Repr

/-- Apply one monitor operation. -/
def applyMonOp (m : Monitor) : MonOp → Monitor
  | .write => monitorNotify m
  | .drain => sd_network_monitor_flush m

/-- Run a sequence of monitor operations left to right. -/
def runMonOps (m : Monitor) (ops : List MonOp) : Monitor :=
  ops.foldl applyMonOp m

theorem notifyN_pending (k : Nat) (m : Monitor) :
    (notifyN (k + 1) m).pending = true := by
  induction k generalizing m with
  | zero => rfl
  | succ j ih => exact ih (monitorNotify m)

theorem runMonOps_pending_of_write (ops : List MonOp) (m : Monitor)
    (hm : m.pending = false) (h : (runMonOps m ops).pending = true) :
    MonOp.write ∈ ops := by
  induction ops generalizing m with
  | nil =>
      rw [runMonOps] at h
      simp only [List.foldl_nil] at h
      rw [hm] at h
      cases h
  | cons op rest ih =>
      cases op with
      | write => exact List.mem_cons_self _ _
      | drain =>
          have h2 : (runMonOps (sd_network_monitor_flush m) rest).pending
              = true := h
          exact List.mem_cons_of_mem _ (ih (sd_network_monitor_flush m) rfl h2)

/-- C8: N writes to the watched category within one burst leave exactly one
pending wakeup on the monitor's pollable handle (N at least 1), a flush
leaves zero, and after a flush a pending wakeup can only reappear if some
further write occurred (edge-triggered semantics). -/
theorem monitor_coalesces_and_edge_triggered (m : Monitor) (n : Nat)
    (ops : List MonOp) :
    (1 ≤ n → pendingWakeups (notifyN n m) = 1) ∧
    pendingWakeups (sd_network_monitor_flush m) = 0 ∧
    (pendingWakeups (runMonOps (sd_network_monitor_flush m) ops) = 1 →
      MonOp.write ∈ ops) := by
  refine ⟨fun hn => ?_, rfl, fun hw => ?_⟩
  · rcases n with _ | k
    · cases hn
    · simp [pendingWakeups, notifyN_pending k m]
  · by_cases hp : (runMonOps (sd_network_monitor_flush m) ops).pending = true
    · exact runMonOps_pending_of_write ops (sd_network_monitor_flush m) rfl hp
    · have hfalse :
          (runMonOps (sd_network_monitor_flush m) ops).pending = false :=
        Bool.eq_false_iff.mpr hp
      simp [pendingWakeups, hfalse] at hw

/-- A concrete instance for monitor_coalesces_and_edge_triggered: three
writes in one burst leave exactly one pending wakeup, a flush leaves zero,
and a wakeup after a flush implies a write happened. -/
theorem monitor_coalesces_and_edge_triggered_witness :
    (1 ≤ 3 ∧
      pendingWakeups (notifyN 3 ⟨["/run/systemd/netif/links"], false⟩) = 1) ∧
    pendingWakeups
        (sd_network_monitor_flush ⟨["/run/systemd/netif/links"], true⟩)
      = 0 ∧
    (pendingWakeups
        (runMonOps
          (sd_network_monitor_flush ⟨["/run/systemd/netif/links"], true⟩)
          [MonOp.write]) = 1 ∧
      MonOp.write ∈ [MonOp.write]) :=
  ⟨⟨by decide,
      (monitor_coalesces_and_edge_triggered
          ⟨["/run/systemd/netif/links"], false⟩ 3 []).1 (by decide)⟩,
    (monitor_coalesces_and_edge_triggered
        ⟨["/run/systemd/netif/links"], true⟩ 0 []).2.1,
    by decide,
    (monitor_coalesces_and_edge_triggered
        ⟨["/run/systemd/netif/links"], true⟩ 0 [MonOp.write]).2.2
      (by decide)⟩

/-- Outcome of opendir on a drop-in directory in src/load-dropin.c: failure
with a (positive) errno value, or success with the list of directory entry
names readdir will yield in order.  Entry names produced by readdir are
never empty (the source asserts de->d_name[0] after the dot check). -/
inductive DirRes
  | derr (e : Nat)
  | dok (entries : List String)
  deriving DecidableEq, Repr

/-- The path of a unit's .wants drop-in directory, as built by
asprintf("%s/%s.wants", unit_path(), t) in src/load-dropin.c. -/
def wantsPath (up t : String) : String := up ++ "/" ++ t ++ ".wants"

/-- The path of one entry of a .wants directory, as built by
asprintf("%s/%s.wants/%s", unit_path(), t, de->d_name). -/
def entryPath (up t name : String) : String :=
  up ++ "/" ++ t ++ ".wants/" ++ name

/-- The readdir loop of unit_load_dropin in src/load-dropin.c on the entry
list of one .wants directory: entries starting with '.' or ending in '~'
are skipped, entries that are not valid unit names are logged and skipped,
and unit_add_dependency_by_name (addDep here, yielding its int result) is
called on the remaining entries' paths; a negative addDep result aborts
with that value.  Returns the final result code and, as instrumentation,
the (unit name, entry name) pairs addDep was invoked on, in order. -/
def processDir (valid : String → Bool) (addDep : String → Int)
    (up t : String) : List String → Int × List (String × String)
  | [] => (0, [])
  | name :: rest =>
      if name.front = '.' then processDir valid addDep up t rest
      else if name.back = '~' then processDir valid addDep up t rest
      else if valid name = false then processDir valid addDep up t rest
      else
        if addDep (entryPath up t name) < 0 then
          (addDep (entryPath up t name), [(t, name)])
        else
          ((processDir valid addDep up t rest).1,
            (t, name) :: (processDir valid addDep up t rest).2)

/-- unit_load_dropin from src/load-dropin.c, iterating over the unit's
names: for each name t, opendir of wantsPath up t (its outcome given by
dirs) with errno ENOENT (2) skips to the next name, any other opendir
failure returns that negative errno at once, and a successful opendir has
its entries processed by processDir, whose negative result also aborts.
Returns the result code and the (unit name, entry name) pairs
unit_add_dependency_by_name was invoked on (allocation failure and the
informational log message are not modelled). -/
def unit_load_dropin (dirs : String → DirRes) (valid : String → Bool)
    (addDep : String → Int) (up : String) :
    List String → Int × List (String × String)
  | [] => (0, [])
  | t :: rest =>
      match dirs (wantsPath up t) with
      | DirRes.derr e =>
          if e = 2 then unit_load_dropin dirs valid addDep up rest
          else (-(e : Int), [])
      | DirRes.dok entries =>
          if (processDir valid addDep up t entries).1 < 0 then
            processDir valid addDep up t entries
          else
            ((unit_load_dropin dirs valid addDep up rest).1,
              (processDir valid addDep up t entries).2 ++
                (unit_load_dropin dirs valid addDep up rest).2)

/-- C9: a missing .wants drop-in directory (opendir failing with ENOENT) is
not an error: unit_load_dropin behaves on that name exactly as if the name
were absent, and when every name's directory is missing it returns 0 having
added nothing; any other opendir failure aborts the whole function with
that negative errno. -/
theorem dropin_enoent_skipped_other_errno_aborts (dirs : String → DirRes)
    (valid : String → Bool) (addDep : String → Int) (up : String) :
    (∀ t rest, dirs (wantsPath up t) = DirRes.derr 2 →
      unit_load_dropin dirs valid addDep up (t :: rest)
        = unit_load_dropin dirs valid addDep up rest) ∧
    (∀ t rest e, dirs (wantsPath up t) = DirRes.derr e → e ≠ 2 →
      unit_load_dropin dirs valid addDep up (t :: rest)
        = (-(e : Int), [])) ∧
    (∀ names, (∀ t ∈ names, dirs (wantsPath up t) = DirRes.derr 2) →
      unit_load_dropin dirs valid addDep up names = (0, [])) := by
  refine ⟨fun t rest h => ?_, fun t rest e h hne => ?_, fun names h => ?_⟩
  · simp [unit_load_dropin, h]
  · simp [unit_load_dropin, h, hne]
  · induction names with
    | nil => rfl
    | cons t rest ih =>
        have ht := h t (List.mem_cons_self t rest)
        have hrest := ih fun t2 ht2 => h t2 (List.mem_cons_of_mem t ht2)
        simp [unit_load_dropin, ht, hrest]

/-- A concrete instance for dropin_enoent_skipped_other_errno_aborts: with
every opendir failing with ENOENT the function returns 0 with no
dependencies added, and with opendir failing with EACCES (errno 13) it
returns -13. -/
theorem dropin_enoent_skipped_other_errno_aborts_witness :
    ((fun _ => DirRes.derr 2 : String → DirRes) ("/units" ++ "/" ++ "a.service" ++ ".wants")
        = DirRes.derr 2 ∧
      unit_load_dropin (fun _ => DirRes.derr 2) (fun _ => true)
          (fun _ => 0) "/units" ["a.service", "b.service"] = (0, [])) ∧
    unit_load_dropin (fun _ => DirRes.derr 13) (fun _ => true)
        (fun _ => 0) "/units" ["a.service"] = (-13, []) :=
  ⟨⟨rfl,
      (dropin_enoent_skipped_other_errno_aborts (fun _ => DirRes.derr 2)
          (fun _ => true) (fun _ => 0) "/units").2.2
        ["a.service", "b.service"] (fun t _ => rfl)⟩,
    (dropin_enoent_skipped_other_errno_aborts (fun _ => DirRes.derr 13)
        (fun _ => true) (fun _ => 0) "/units").2.1
      "a.service" [] 13 rfl (by decide)⟩

theorem processDir_skip (valid : String → Bool) (addDep : String → Int)
    (up t name : String) (entries : List String)
    (h : name.front = '.' ∨ name.back = '~' ∨ valid name = false) :
    processDir valid addDep up t (name :: entries)
      = processDir valid addDep up t entries := by
  by_cases h1 : name.front = '.'
  · simp [processDir, h1]
  · by_cases h2 : name.back = '~'
    · simp [processDir, h1, h2]
    · rcases h with h | h | h
      · exact absurd h h1
      · exact absurd h h2
      · simp [processDir, h1, h2, h]

theorem processDir_all_skippable (valid : String → Bool)
    (addDep : String → Int) (up t : String) (entries : List String)
    (h : ∀ name ∈ entries,
      name.front = '.' ∨ name.back = '~' ∨ valid name = false) :
    processDir valid addDep up t entries = (0, []) := by
  induction entries with
  | nil => rfl
  | cons name rest ih =>
      rw [processDir_skip valid addDep up t name rest
        (h name (List.mem_cons_self name rest))]
      exact ih fun n hn => h n (List.mem_cons_of_mem name hn)

theorem processDir_deps_qualify (valid : String → Bool)
    (addDep : String → Int) (up t : String) (entries : List String) :
    ∀ tn ∈ (processDir valid addDep up t entries).2,
      tn.2.front ≠ '.' ∧ tn.2.back ≠ '~' ∧ valid tn.2 = true := by
  induction entries with
  | nil => intro tn htn; cases htn
  | cons name rest ih =>
      intro tn htn
      by_cases h1 : name.front = '.'
      · rw [processDir_skip valid addDep up t name rest (Or.inl h1)] at htn
        exact ih tn htn
      · by_cases h2 : name.back = '~'
        · rw [processDir_skip valid addDep up t name rest
            (Or.inr (Or.inl h2))] at htn
          exact ih tn htn
        · by_cases h3 : valid name = false
          · rw [processDir_skip valid addDep up t name rest
              (Or.inr (Or.inr h3))] at htn
            exact ih tn htn
          · have hv : valid name = true := by
              cases hvn : valid name
              · exact absurd hvn h3
              · rfl
            by_cases h4 : addDep (entryPath up t name) < 0
            · have hred : (processDir valid addDep up t (name :: rest)).2
                  = [(t, name)] := by
                simp [processDir, h1, h2, hv, h4]
              rw [hred] at htn
              have htn2 : tn = (t, name) := by simpa using htn
              rw [htn2]
              exact ⟨h1, h2, hv⟩
            · have hred : (processDir valid addDep up t (name :: rest)).2
                  = (t, name) :: (processDir valid addDep up t rest).2 := by
                simp [processDir, h1, h2, hv, h4]
              rw [hred] at htn
              rcases List.mem_cons.mp htn with h | h
              · rw [h]
                exact ⟨h1, h2, hv⟩
              · exact ih tn h

theorem dropin_deps_qualify (dirs : String → DirRes)
    (valid : String → Bool) (addDep : String → Int) (up : String)
    (names : List String) :
    ∀ tn ∈ (unit_load_dropin dirs valid addDep up names).2,
      tn.2.front ≠ '.' ∧ tn.2.back ≠ '~' ∧ valid tn.2 = true := by
  induction names with
  | nil => intro tn htn; cases htn
  | cons t rest ih =>
      intro tn htn
      rcases hd : dirs (wantsPath up t) with e | entries
      · by_cases he : e = 2
        · rw [he] at hd
          have hred : unit_load_dropin dirs valid addDep up (t :: rest)
              = unit_load_dropin dirs valid addDep up rest := by
            simp [unit_load_dropin, hd]
          rw [hred] at htn
          exact ih tn htn
        · have hred : (unit_load_dropin dirs valid addDep up (t :: rest)).2
              = [] := by
            simp [unit_load_dropin, hd, he]
          rw [hred] at htn
          cases htn
      · by_cases hneg : (processDir valid addDep up t entries).1 < 0
        · have hred : (unit_load_dropin dirs valid addDep up (t :: rest)).2
              = (processDir valid addDep up t entries).2 := by
            simp [unit_load_dropin, hd, hneg]
          rw [hred] at htn
          exact processDir_deps_qualify valid addDep up t entries tn htn
        · have hred : (unit_load_dropin dirs valid addDep up (t :: rest)).2
              = (processDir valid addDep up t entries).2 ++
                  (unit_load_dropin dirs valid addDep up rest).2 := by
            simp [unit_load_dropin, hd, hneg]
          rw [hred] at htn
          rcases List.mem_append.mp htn with h | h
          · exact processDir_deps_qualify valid addDep up t entries tn h
          · exact ih tn h

/-- C10: unit_load_dropin never calls unit_add_dependency_by_name for a
directory entry whose name starts with a dot, ends with a tilde, or is not
a valid unit name: every attempted dependency's entry name avoids all
three; a skippable entry is simply dropped from the processing of its
directory, and a directory consisting only of such entries is processed to
result 0 with no dependency added, so none of them causes an error
return. -/
theorem dropin_skips_dot_tilde_invalid (dirs : String → DirRes)
    (valid : String → Bool) (addDep : String → Int) (up : String)
    (names : List String) :
    (∀ tn ∈ (unit_load_dropin dirs valid addDep up names).2,
      tn.2.front ≠ '.' ∧ tn.2.back ≠ '~' ∧ valid tn.2 = true) ∧
    (∀ t name entries,
      (name.front = '.' ∨ name.back = '~' ∨ valid name = false) →
      processDir valid addDep up t (name :: entries)
        = processDir valid addDep up t entries) ∧
    (∀ t entries,
      (∀ name ∈ entries,
        name.front = '.' ∨ name.back = '~' ∨ valid name = false) →
      processDir valid addDep up t entries = (0, [])) :=
  ⟨dropin_deps_qualify dirs valid addDep up names,
    fun t name entries h => processDir_skip valid addDep up t name entries h,
    fun t entries h => processDir_all_skippable valid addDep up t entries h⟩

/-- A concrete instance for dropin_skips_dot_tilde_invalid: a dotfile entry
is dropped from processing, and a directory holding only a dotfile, a
backup file and an invalid name is processed to 0 with no dependency
added. -/
theorem dropin_skips_dot_tilde_invalid_witness :
    processDir (fun s => s == "good.service") (fun _ => 0) "/units"
        "a.service" [".hidden", "good.service"]
      = processDir (fun s => s == "good.service") (fun _ => 0) "/units"
          "a.service" ["good.service"] ∧
    processDir (fun s => s == "good.service") (fun _ => 0) "/units"
        "a.service" [".hidden", "backup~", "bad"] = (0, []) :=
  ⟨(dropin_skips_dot_tilde_invalid (fun _ => DirRes.dok [])
        (fun s => s == "good.service") (fun _ => 0) "/units" []).2.1
      "a.service" ".hidden" ["good.service"] (Or.inl (by decide)),
    (dropin_skips_dot_tilde_invalid (fun _ => DirRes.dok [])
        (fun s => s == "good.service") (fun _ => 0) "/units" []).2.2
      "a.service" [".hidden", "backup~", "bad"] (by decide)⟩
